import Mathlib

set_option maxRecDepth 2000
set_option maxHeartbeats 1000000

/-
Verification of the Game of Life implementation in src/main.c (a 70x30
toroidal Conway's Game of Life simulator) against its design specification.

The embedding mirrors the C source:
  - C machine integers are modeled as Int; the C remainder operator on int
    (truncating division remainder, C99 6.5.5) is Int.tmod.
  - The grid int[COLS*ROWS] is modeled as List Int; an array access whose
    index falls outside [0, length) is undefined behaviour in C, so the
    accessors return Option and yield none in that case.
  - The statement sequencing of update's double loop is an explicit
    recursion over the list of (x, y) loop-counter pairs, threading the
    scratch buffer gridcpy.
-/

namespace GoL

/-- COLS from main.c. -/
def COLS : Int := 70

/-- ROWS from main.c. -/
def ROWS : Int := 30

/-- Number of cells of the grid buffer, COLS * ROWS = 2100. -/
def CELLS : Nat := 2100

/-- cellindex from main.c:
  x = (x+COLS)%COLS; y = (y+ROWS)%ROWS; return y * COLS + x;
C's % on int is the truncating-division remainder, i.e. Int.tmod. -/
def cellindex (x y : Int) : Int :=
  let xw := (x + COLS).tmod COLS
  let yw := (y + ROWS).tmod ROWS
  yw * COLS + xw

/-- getcell from main.c: return grid[cellindex(x,y)].
The read is meaningful only when the index is inside the buffer;
outside it the C program has undefined behaviour, modeled as none. -/
def getcell (grid : List Int) (x y : Int) : Option Int :=
  let i := cellindex x y
  if 0 ≤ i ∧ i < (grid.length : Int) then some (grid.getD i.toNat 0) else none

/-- setcell from main.c: grid[cellindex(x,y)] = state, with the same
in-bounds proviso as getcell. -/
def setcell (grid : List Int) (x y : Int) (state : Int) : Option (List Int) :=
  let i := cellindex x y
  if 0 ≤ i ∧ i < (grid.length : Int) then some (grid.set i.toNat state) else none

/-- init from main.c: zeroes every entry of the COLS*ROWS buffer. -/
def init (grid : List Int) : List Int :=
  List.replicate grid.length 0

/-- copygrid from main.c copies every entry of source into an equal-length
dest buffer; the dest buffer afterwards equals source. -/
def copygrid (source : List Int) : List Int :=
  source

/-- count_alive_neighbors from main.c: the eight getcell reads, in source
order, summed as nw + n + ne + w + e + sw + s + se. -/
def count_alive_neighbors (grid : List Int) (x y : Int) : Option Int :=
  (getcell grid (x-1) (y-1)).bind fun nw =>
  (getcell grid x (y-1)).bind fun n =>
  (getcell grid (x+1) (y-1)).bind fun ne =>
  (getcell grid (x-1) y).bind fun w =>
  (getcell grid (x+1) y).bind fun e =>
  (getcell grid (x-1) (y+1)).bind fun sw =>
  (getcell grid x (y+1)).bind fun s =>
  (getcell grid (x+1) (y+1)).bind fun se =>
  some (nw + n + ne + w + e + sw + s + se)

/-- The loop-counter pairs (x, y) of update's double loop, in execution
order: y runs over 0..ROWS-1 outermost, x over 0..COLS-1 innermost. -/
def coordList : List (Nat × Nat) :=
  (List.range 30).flatMap fun y => (List.range 70).map fun x => (x, y)

/-- The body of update's double loop: for each (x, y), count the live
neighbors in the read-only grid, test getcell(grid,x,y), and write 0 or 1
into the scratch buffer acc (gridcpy) exactly as main.c does. -/
def updateLoop (grid : List Int) : List (Nat × Nat) → List Int → Option (List Int)
  | [], acc => some acc
  | (x, y) :: rest, acc =>
    (count_alive_neighbors grid x y).bind fun an =>
    (getcell grid x y).bind fun c =>
    (if c ≠ 0 then
        (if an < 2 ∨ an > 3 then setcell acc x y 0 else some acc)
      else
        (if an = 3 then setcell acc x y 1 else some acc)).bind fun acc2 =>
    updateLoop grid rest acc2

/-- update from main.c: copy the grid into gridcpy, run the double loop
reading from grid and writing into gridcpy, then copy gridcpy back. -/
def update (grid : List Int) : Option (List Int) :=
  let gridcpy := copygrid grid
  match updateLoop grid coordList gridcpy with
  | some res => some (copygrid res)
  | none => none

/-- The (x, y) arguments of the 119 assignments grid[cellindex(x,y)] = 1
performed by setup in main.c, in source order. -/
def setupCoords : List (Nat × Nat) :=
  [(20, 15), (21, 13), (21, 14), (21, 16), (21, 17),
   (24, 12), (24, 13), (24, 14), (24, 16), (24, 17), (24, 18),
   (25, 12), (25, 13), (25, 17), (25, 18),
   (26, 8), (26, 9), (26, 10), (26, 20), (26, 21), (26, 22),
   (28, 8), (28, 10), (28, 20), (28, 22),
   (29, 10), (29, 11), (29, 19), (29, 20),
   (30, 10), (30, 20),
   (31, 9), (31, 10), (31, 20), (31, 21),
   (32, 10), (32, 20),
   (33, 10), (33, 13), (33, 17), (33, 20),
   (34, 10), (34, 13), (34, 17), (34, 20),
   (35, 8), (35, 10), (35, 11), (35, 19), (35, 20), (35, 22),
   (36, 7), (36, 9), (36, 21), (36, 23),
   (38, 9), (38, 21),
   (39, 9), (39, 21),
   (40, 9), (40, 21),
   (41, 8), (41, 9), (41, 21), (41, 22),
   (42, 8), (42, 9), (42, 21), (42, 22),
   (43, 9), (43, 11), (43, 12), (43, 13), (43, 17), (43, 18), (43, 19), (43, 21),
   (44, 11), (44, 12), (44, 13), (44, 17), (44, 18), (44, 19),
   (45, 11), (45, 12), (45, 18), (45, 19),
   (46, 10), (46, 11), (46, 19), (46, 20),
   (47, 12), (47, 18),
   (48, 9), (48, 21),
   (49, 9), (49, 10), (49, 20), (49, 21),
   (51, 8), (51, 10), (51, 11), (51, 19), (51, 20), (51, 22),
   (52, 7), (52, 10), (52, 11), (52, 19), (52, 20), (52, 23),
   (53, 6), (53, 10), (53, 11), (53, 19), (53, 20), (53, 24),
   (54, 7), (54, 23)]

/-- setup from main.c: the sequence of raw writes grid[cellindex(x,y)] = 1.
Every coordinate in setupCoords is inside [0,70) x [0,30), so each C write
lands at the in-range index cellindex(x,y) of the 2100-cell buffer. -/
def setup (grid : List Int) : List Int :=
  setupCoords.foldl (fun g p => g.set (cellindex p.1 p.2).toNat 1) grid

/-! ### Derived pointwise description of the update loop -/

/-- The value of the eight-neighbor sum that count_alive_neighbors computes
when all eight reads are in bounds, written with total list reads. -/
def nbSum (g : List Int) (x y : Int) : Int :=
  g.getD (cellindex (x-1) (y-1)).toNat 0 + g.getD (cellindex x (y-1)).toNat 0 +
  g.getD (cellindex (x+1) (y-1)).toNat 0 + g.getD (cellindex (x-1) y).toNat 0 +
  g.getD (cellindex (x+1) y).toNat 0 + g.getD (cellindex (x-1) (y+1)).toNat 0 +
  g.getD (cellindex x (y+1)).toNat 0 + g.getD (cellindex (x+1) (y+1)).toNat 0

/-- The next value of the cell at (x, y), read off from the branch structure
of update's loop body: a nonzero cell is zeroed when its neighbor sum is
outside 2..3 and otherwise kept; a zero cell becomes 1 exactly on sum 3. -/
def cellNext (g : List Int) (x y : Int) : Int :=
  if g.getD (cellindex x y).toNat 0 ≠ 0 then
    (if nbSum g x y < 2 ∨ nbSum g x y > 3 then 0 else g.getD (cellindex x y).toNat 0)
  else
    (if nbSum g x y = 3 then 1 else g.getD (cellindex x y).toNat 0)

/-- The whole-grid pointwise step: cell j of the result is cellNext applied
at the coordinates (j % 70, j / 70) of cell j, all reads taken from g. -/
def lifeStep (g : List Int) : List Int :=
  List.ofFn fun j : Fin 2100 => cellNext g ((j : Nat) % 70 : Nat) ((j : Nat) / 70 : Nat)

/-- The buffer index written by the loop iteration with counters p. -/
def pidx (p : Nat × Nat) : Nat := (cellindex p.1 p.2).toNat

/-! ### Arithmetic facts about cellindex -/

lemma cellindex_emod (x y : Int) (hx : -70 ≤ x) (hy : -30 ≤ y) :
    cellindex x y = y % 30 * 70 + x % 70 := by
  show ((y + ROWS).tmod ROWS) * COLS + ((x + COLS).tmod COLS) = y % 30 * 70 + x % 70
  show ((y + 30).tmod 30) * 70 + ((x + 70).tmod 70) = y % 30 * 70 + x % 70
  rw [Int.tmod_eq_emod (by omega) (by norm_num), Int.tmod_eq_emod (by omega) (by norm_num)]
  omega

lemma cellindex_bounds (x y : Int) (hx : -70 ≤ x) (hy : -30 ≤ y) :
    0 ≤ cellindex x y ∧ cellindex x y < 2100 := by
  rw [cellindex_emod x y hx hy]; omega

lemma cellindex_toNat (x y : Int) (hx : -70 ≤ x) (hy : -30 ≤ y) :
    (cellindex x y).toNat = (y % 30).toNat * 70 + (x % 70).toNat := by
  rw [cellindex_emod x y hx hy]; omega

lemma pidx_eq (p : Nat × Nat) (h1 : p.1 < 70) (h2 : p.2 < 30) :
    pidx p = p.2 * 70 + p.1 := by
  show (cellindex p.1 p.2).toNat = p.2 * 70 + p.1
  rw [cellindex_toNat _ _ (by omega) (by omega)]
  omega

/-! ### List access helpers -/

lemma getD_eq_getElem (l : List Int) (n : Nat) (h : n < l.length) :
    l.getD n 0 = l[n] := by
  rw [List.getD_eq_getElem?_getD, List.getElem?_eq_getElem h, Option.getD_some]

lemma getD_set_ne (l : List Int) (n m : Nat) (v : Int) (h : n ≠ m) :
    (l.set n v).getD m 0 = l.getD m 0 := by
  rw [List.getD_eq_getElem?_getD, List.getElem?_set_ne h, ← List.getD_eq_getElem?_getD]

lemma getD_set_self (l : List Int) (n : Nat) (v : Int) (h : n < l.length) :
    (l.set n v).getD n 0 = v := by
  rw [List.getD_eq_getElem?_getD, List.getElem?_set_self h, Option.getD_some]

/-! ### The accessors on an in-range index of the 2100-cell buffer -/

lemma getcell_eq (g : List Int) (x y : Int) (hg : g.length = 2100)
    (hx : -70 ≤ x) (hy : -30 ≤ y) :
    getcell g x y = some (g.getD (cellindex x y).toNat 0) := by
  have h := cellindex_bounds x y hx hy
  rw [getcell, if_pos (by rw [hg]; omega)]

lemma setcell_eq (g : List Int) (x y : Int) (v : Int) (hg : g.length = 2100)
    (hx : -70 ≤ x) (hy : -30 ≤ y) :
    setcell g x y v = some (g.set (cellindex x y).toNat v) := by
  have h := cellindex_bounds x y hx hy
  rw [setcell, if_pos (by rw [hg]; omega)]

lemma count_eq (g : List Int) (x y : Int) (hg : g.length = 2100)
    (hx : -69 ≤ x) (hy : -29 ≤ y) :
    count_alive_neighbors g x y = some (nbSum g x y) := by
  rw [count_alive_neighbors,
    getcell_eq g (x-1) (y-1) hg (by omega) (by omega), Option.some_bind,
    getcell_eq g x (y-1) hg (by omega) (by omega), Option.some_bind,
    getcell_eq g (x+1) (y-1) hg (by omega) (by omega), Option.some_bind,
    getcell_eq g (x-1) y hg (by omega) (by omega), Option.some_bind,
    getcell_eq g (x+1) y hg (by omega) (by omega), Option.some_bind,
    getcell_eq g (x-1) (y+1) hg (by omega) (by omega), Option.some_bind,
    getcell_eq g x (y+1) hg (by omega) (by omega), Option.some_bind,
    getcell_eq g (x+1) (y+1) hg (by omega) (by omega), Option.some_bind,
    nbSum]

/-! ### The update loop writes each visited index once, from a read-only grid -/

lemma updateLoop_spec (grid : List Int) (hg : grid.length = 2100)
    (coords : List (Nat × Nat)) :
    ∀ acc : List Int, acc.length = 2100 →
    (∀ p ∈ coords, p.1 < 70 ∧ p.2 < 30) →
    (coords.map pidx).Nodup →
    (∀ p ∈ coords, acc.getD (pidx p) 0 = grid.getD (pidx p) 0) →
    ∃ res, updateLoop grid coords acc = some res ∧ res.length = 2100 ∧
      (∀ p ∈ coords, res.getD (pidx p) 0 = cellNext grid p.1 p.2) ∧
      (∀ j : Nat, j ∉ coords.map pidx → res.getD j 0 = acc.getD j 0) := by
  induction coords with
  | nil =>
    intro acc hacc _ _ _
    exact ⟨acc, rfl, hacc, by simp, fun j _ => rfl⟩
  | cons hd rest ih =>
    obtain ⟨x, y⟩ := hd
    intro acc hacc hvalid hnodup hmatch
    obtain ⟨hx, hy⟩ := hvalid (x, y) (List.mem_cons_self _ _)
    have hhead : pidx (x, y) ∉ rest.map pidx ∧ (rest.map pidx).Nodup := by
      rw [List.map_cons, List.nodup_cons] at hnodup; exact hnodup
    have hi0 : pidx (x, y) < 2100 := by rw [pidx_eq _ hx hy]; omega
    have hmatch0 : acc.getD (pidx (x, y)) 0 = grid.getD (pidx (x, y)) 0 :=
      hmatch (x, y) (List.mem_cons_self _ _)
    -- one loop iteration
    simp only [updateLoop]
    rw [count_eq grid x y hg (by omega) (by omega), Option.some_bind,
      getcell_eq grid x y hg (by omega) (by omega), Option.some_bind]
    -- the iteration turns acc into acc2, writing at most index pidx (x, y)
    have main : ∀ acc2 : List Int, acc2.length = 2100 →
        acc2.getD (pidx (x, y)) 0 = cellNext grid x y →
        (∀ j : Nat, j ≠ pidx (x, y) → acc2.getD j 0 = acc.getD j 0) →
        ∃ res, updateLoop grid rest acc2 = some res ∧ res.length = 2100 ∧
          (∀ p ∈ (x, y) :: rest, res.getD (pidx p) 0 = cellNext grid p.1 p.2) ∧
          (∀ j : Nat, j ∉ ((x, y) :: rest).map pidx → res.getD j 0 = acc.getD j 0) := by
      intro acc2 hlen2 hval2 hother2
      obtain ⟨res, hrun, hlen, hdone, huntouched⟩ := ih acc2 hlen2
        (fun p hp => hvalid p (List.mem_cons_of_mem _ hp)) hhead.2
        (fun p hp => by
          have hne : pidx p ≠ pidx (x, y) := fun hc =>
            hhead.1 (hc ▸ List.mem_map_of_mem pidx hp)
          rw [hother2 _ hne]
          exact hmatch p (List.mem_cons_of_mem _ hp))
      refine ⟨res, hrun, hlen, ?_, ?_⟩
      · intro p hp
        rcases List.mem_cons.mp hp with rfl | hp'
        · rw [huntouched _ hhead.1]; exact hval2
        · exact hdone p hp'
      · intro j hj
        rw [List.map_cons, List.mem_cons, not_or] at hj
        rw [huntouched j hj.2, hother2 j hj.1]
    by_cases hc : grid.getD (cellindex (x : Int) (y : Int)).toNat 0 ≠ 0
    · rw [if_pos hc]
      by_cases han : nbSum grid x y < 2 ∨ nbSum grid x y > 3
      · rw [if_pos han, setcell_eq acc x y 0 hacc (by omega) (by omega), Option.some_bind]
        exact main _ (by rw [List.length_set, hacc])
          (by
            rw [show (cellindex (x : Int) (y : Int)).toNat = pidx (x, y) from rfl,
              getD_set_self _ _ _ (by omega), cellNext, if_pos hc, if_pos han])
          (fun j hj => getD_set_ne _ _ _ _ (Ne.symm hj))
      · rw [if_neg han, Option.some_bind]
        exact main acc hacc
          (by rw [cellNext, if_pos hc, if_neg han]; exact hmatch0) (fun _ _ => rfl)
    · rw [if_neg hc]
      by_cases han : nbSum grid x y = 3
      · rw [if_pos han, setcell_eq acc x y 1 hacc (by omega) (by omega), Option.some_bind]
        exact main _ (by rw [List.length_set, hacc])
          (by
            rw [show (cellindex (x : Int) (y : Int)).toNat = pidx (x, y) from rfl,
              getD_set_self _ _ _ (by omega), cellNext, if_neg hc, if_pos han])
          (fun j hj => getD_set_ne _ _ _ _ (Ne.symm hj))
      · rw [if_neg han, Option.some_bind]
        exact main acc hacc
          (by rw [cellNext, if_neg hc, if_neg han]; exact hmatch0) (fun _ _ => rfl)

/-! ### The loop counters cover each cell exactly once -/

lemma mem_coordList (p : Nat × Nat) : p ∈ coordList ↔ p.1 < 70 ∧ p.2 < 30 := by
  obtain ⟨a, b⟩ := p
  simp only [coordList, List.mem_flatMap, List.mem_map, List.mem_range, Prod.mk.injEq]
  constructor
  · rintro ⟨y0, hy0, x0, hx0, rfl, rfl⟩; exact ⟨hx0, hy0⟩
  · rintro ⟨ha, hb⟩; exact ⟨b, hb, a, ha, rfl, rfl⟩

lemma coordList_nodup : (coordList.map pidx).Nodup := by
  have h1 : coordList.Nodup := by
    rw [coordList, List.nodup_flatMap]
    constructor
    · intro y _
      exact ((List.nodup_range 70).map fun a b h => congrArg Prod.fst h)
    · refine (List.nodup_range 30).imp ?_
      intro a b hab p hp1 hp2
      simp only [List.mem_map, List.mem_range] at hp1 hp2
      obtain ⟨x1, _, rfl⟩ := hp1
      obtain ⟨x2, _, h2⟩ := hp2
      exact hab (congrArg Prod.snd h2).symm
  refine h1.map_on ?_
  intro p hp q hq hpq
  obtain ⟨hp1, hp2⟩ := (mem_coordList p).mp hp
  obtain ⟨hq1, hq2⟩ := (mem_coordList q).mp hq
  rw [pidx_eq p hp1 hp2, pidx_eq q hq1 hq2] at hpq
  obtain ⟨a, b⟩ := p
  obtain ⟨c, d⟩ := q
  simp only [Prod.mk.injEq]
  simp only at hp1 hp2 hq1 hq2 hpq
  omega

lemma lifeStep_length (g : List Int) : (lifeStep g).length = 2100 :=
  List.length_ofFn _

/-- The generation step of main.c is total on 2100-cell buffers and equal to
the pointwise map of cellNext over the unmodified pre-update grid. -/
theorem update_eq_lifeStep (grid : List Int) (hg : grid.length = 2100) :
    update grid = some (lifeStep grid) := by
  obtain ⟨res, hrun, hlen, hdone, _⟩ := updateLoop_spec grid hg coordList grid hg
    (fun p hp => (mem_coordList p).mp hp) coordList_nodup (fun p _ => rfl)
  have hfinal : res = lifeStep grid := by
    apply List.ext_getElem (by rw [hlen, lifeStep_length])
    intro j h1 h2
    have hj : j < 2100 := by rw [hlen] at h1; exact h1
    have hp : ((j % 70 : Nat), (j / 70 : Nat)) ∈ coordList :=
      (mem_coordList _).mpr ⟨by omega, by omega⟩
    have hidx : pidx (j % 70, j / 70) = j := by
      rw [pidx_eq _ (by omega) (by omega)]; omega
    have hval := hdone _ hp
    rw [hidx] at hval
    rw [← getD_eq_getElem res j h1, hval]
    simp only [lifeStep]
    rw [List.getElem_ofFn]
  rw [← hfinal]
  unfold update
  simp only [copygrid]
  rw [hrun]

/-! ### The specification's own description of the step, for comparison.
These definitions follow the wording of the spec (sections 4.1 and 4.2),
not the source: true mathematical modulo ((x mod W) + W) mod W via Int
emod, the standard Life rule table, and a pointwise map over the grid. -/

/-- Spec 4.1: index(x, y) computes ((x mod W) + W) mod W and
((y mod H) + H) mod H with true mathematical modulo, then linearizes
as yWrapped * W + xWrapped. Int emod is true mathematical modulo. -/
def specIndex (x y : Int) : Nat :=
  ((y % 30 + 30) % 30 * 70 + (x % 70 + 70) % 70).toNat

/-- Spec 4.2: the sum of the states of the 8 toroidally-wrapped neighbor
cells of (x, y), excluding the cell itself. -/
def specNeighborCount (g : List Int) (x y : Int) : Int :=
  g.getD (specIndex (x-1) (y-1)) 0 + g.getD (specIndex x (y-1)) 0 +
  g.getD (specIndex (x+1) (y-1)) 0 + g.getD (specIndex (x-1) y) 0 +
  g.getD (specIndex (x+1) y) 0 + g.getD (specIndex (x-1) (y+1)) 0 +
  g.getD (specIndex x (y+1)) 0 + g.getD (specIndex (x+1) (y+1)) 0

/-- Spec 4.2: the standard Life rule table on (current state, neighbor
count): alive survives exactly on 2 or 3 neighbors, dead revives exactly
on 3 neighbors. -/
def specCellRule (c an : Int) : Int :=
  if c = 1 then (if an = 2 ∨ an = 3 then 1 else 0) else (if an = 3 then 1 else 0)

/-- Spec 4.2: advance decides every cell independently from the read-only
pre-advance grid and installs the results as the new grid. -/
def specAdvance (g : List Int) : List Int :=
  List.ofFn fun j : Fin 2100 =>
    specCellRule (g.getD (j : Nat) 0)
      (specNeighborCount g ((j : Nat) % 70 : Nat) ((j : Nat) / 70 : Nat))

/-! ### Agreement of the code's index with the spec index on the
coordinates the update loop actually uses -/

lemma cellindex_toNat_eq_specIndex (x y : Int) (hx : -70 ≤ x) (hy : -30 ≤ y) :
    (cellindex x y).toNat = specIndex x y := by
  rw [cellindex_emod x y hx hy, specIndex]
  omega

lemma nbSum_eq_specNeighborCount (g : List Int) (x y : Int)
    (hx : -69 ≤ x) (hy : -29 ≤ y) :
    nbSum g x y = specNeighborCount g x y := by
  rw [nbSum, specNeighborCount,
    cellindex_toNat_eq_specIndex (x-1) (y-1) (by omega) (by omega),
    cellindex_toNat_eq_specIndex x (y-1) (by omega) (by omega),
    cellindex_toNat_eq_specIndex (x+1) (y-1) (by omega) (by omega),
    cellindex_toNat_eq_specIndex (x-1) y (by omega) (by omega),
    cellindex_toNat_eq_specIndex (x+1) y (by omega) (by omega),
    cellindex_toNat_eq_specIndex (x-1) (y+1) (by omega) (by omega),
    cellindex_toNat_eq_specIndex x (y+1) (by omega) (by omega),
    cellindex_toNat_eq_specIndex (x+1) (y+1) (by omega) (by omega)]

/-- On a grid whose cells are all 0 or 1, every total read is 0 or 1. -/
lemma getD_mem_01 (g : List Int) (h01 : ∀ c ∈ g, c = 0 ∨ c = 1) (j : Nat) :
    g.getD j 0 = 0 ∨ g.getD j 0 = 1 := by
  by_cases hj : j < g.length
  · rw [getD_eq_getElem g j hj]
    exact h01 _ (List.getElem_mem hj)
  · left
    rw [List.getD_eq_getElem?_getD, List.getElem?_eq_none (by omega), Option.getD_none]

/-- On 0/1 grids the branch structure of update's loop body computes
exactly the spec's rule table value. -/
lemma cellNext_eq_specCellRule (g : List Int) (h01 : ∀ c ∈ g, c = 0 ∨ c = 1)
    (x y : Int) (hx : -69 ≤ x) (hy : -29 ≤ y) :
    cellNext g x y = specCellRule (g.getD (cellindex x y).toNat 0) (specNeighborCount g x y) := by
  rw [cellNext, specCellRule, ← nbSum_eq_specNeighborCount g x y hx hy]
  rcases getD_mem_01 g h01 (cellindex x y).toNat with hc | hc <;> rw [hc] <;> norm_num
  by_cases han : nbSum g x y = 2 ∨ nbSum g x y = 3
  · rw [if_neg (by omega), if_pos han]
  · rw [if_pos (by omega), if_neg han]

lemma lifeStep_eq_specAdvance (g : List Int)
    (h01 : ∀ c ∈ g, c = 0 ∨ c = 1) :
    lifeStep g = specAdvance g := by
  apply List.ext_getElem (by rw [lifeStep_length, specAdvance, List.length_ofFn])
  intro j h1 h2
  have hj : j < 2100 := by rw [lifeStep_length] at h1; exact h1
  simp only [lifeStep, specAdvance]
  rw [List.getElem_ofFn, List.getElem_ofFn]
  show cellNext g ((j % 70 : Nat) : Int) ((j / 70 : Nat) : Int)
    = specCellRule (g.getD j 0)
        (specNeighborCount g ((j % 70 : Nat) : Int) ((j / 70 : Nat) : Int))
  rw [cellNext_eq_specCellRule g h01 _ _ (by omega) (by omega)]
  congr 2
  rw [cellindex_toNat _ _ (by omega) (by omega)]
  omega

/-! ### Grids described by a function on coordinates -/

/-- The 2100-cell buffer whose cell (x, y) holds f x y. -/
def mkGrid (f : Nat → Nat → Int) : List Int :=
  List.ofFn fun j : Fin 2100 => f ((j : Nat) % 70) ((j : Nat) / 70)

lemma mkGrid_length (f : Nat → Nat → Int) : (mkGrid f).length = 2100 :=
  List.length_ofFn _

lemma mkGrid_getD (f : Nat → Nat → Int) (x y : Nat) (hx : x < 70) (hy : y < 30) :
    (mkGrid f).getD (y * 70 + x) 0 = f x y := by
  rw [getD_eq_getElem _ _ (by rw [mkGrid_length]; omega)]
  simp only [mkGrid]
  rw [List.getElem_ofFn]
  show f ((y * 70 + x) % 70) ((y * 70 + x) / 70) = f x y
  have e1 : (y * 70 + x) % 70 = x := by omega
  have e2 : (y * 70 + x) / 70 = y := by omega
  rw [e1, e2]

lemma mkGrid_getD_lin (f : Nat → Nat → Int) (j : Nat) (hj : j < 2100) :
    (mkGrid f).getD j 0 = f (j % 70) (j / 70) := by
  have h := mkGrid_getD f (j % 70) (j / 70) (by omega) (by omega)
  rwa [show j / 70 * 70 + j % 70 = j from by omega] at h

lemma list_eq_of_getD (l1 l2 : List Int) (h1 : l1.length = 2100) (h2 : l2.length = 2100)
    (h : ∀ j < 2100, l1.getD j 0 = l2.getD j 0) : l1 = l2 := by
  apply List.ext_getElem (by omega)
  intro j hj1 hj2
  rw [← getD_eq_getElem l1 j hj1, ← getD_eq_getElem l2 j hj2]
  exact h j (by omega)

lemma lifeStep_getD (g : List Int) (j : Nat) (hj : j < 2100) :
    (lifeStep g).getD j 0 = cellNext g ((j % 70 : Nat) : Int) ((j / 70 : Nat) : Int) := by
  rw [getD_eq_getElem _ _ (by rw [lifeStep_length]; omega)]
  simp only [lifeStep]
  rw [List.getElem_ofFn]

/-! ### The pointwise step on functional grids -/

/-- The eight-neighbor sum of cell (x, y) of the functional grid f, the
wrapped coordinate arithmetic carried out on Nat. -/
def nbF (f : Nat → Nat → Int) (x y : Nat) : Int :=
  f ((x+69) % 70) ((y+29) % 30) + f (x % 70) ((y+29) % 30) + f ((x+1) % 70) ((y+29) % 30) +
  f ((x+69) % 70) (y % 30) + f ((x+1) % 70) (y % 30) +
  f ((x+69) % 70) ((y+1) % 30) + f (x % 70) ((y+1) % 30) + f ((x+1) % 70) ((y+1) % 30)

/-- cellNext on the functional grid f. -/
def stepF (f : Nat → Nat → Int) (x y : Nat) : Int :=
  if f (x % 70) (y % 30) ≠ 0 then
    (if nbF f x y < 2 ∨ nbF f x y > 3 then 0 else f (x % 70) (y % 30))
  else
    (if nbF f x y = 3 then 1 else f (x % 70) (y % 30))

lemma idx1 (x y : Nat) (hx : x < 70) (hy : y < 30) :
    (cellindex ((x:Int) - 1) ((y:Int) - 1)).toNat = ((y+29) % 30) * 70 + (x+69) % 70 := by
  rw [cellindex_toNat _ _ (by omega) (by omega)]; omega

lemma idx2 (x y : Nat) (hx : x < 70) (hy : y < 30) :
    (cellindex (x:Int) ((y:Int) - 1)).toNat = ((y+29) % 30) * 70 + x % 70 := by
  rw [cellindex_toNat _ _ (by omega) (by omega)]; omega

lemma idx3 (x y : Nat) (hx : x < 70) (hy : y < 30) :
    (cellindex ((x:Int) + 1) ((y:Int) - 1)).toNat = ((y+29) % 30) * 70 + (x+1) % 70 := by
  rw [cellindex_toNat _ _ (by omega) (by omega)]; omega

lemma idx4 (x y : Nat) (hx : x < 70) (hy : y < 30) :
    (cellindex ((x:Int) - 1) (y:Int)).toNat = (y % 30) * 70 + (x+69) % 70 := by
  rw [cellindex_toNat _ _ (by omega) (by omega)]; omega

lemma idx5 (x y : Nat) (hx : x < 70) (hy : y < 30) :
    (cellindex ((x:Int) + 1) (y:Int)).toNat = (y % 30) * 70 + (x+1) % 70 := by
  rw [cellindex_toNat _ _ (by omega) (by omega)]; omega

lemma idx6 (x y : Nat) (hx : x < 70) (hy : y < 30) :
    (cellindex ((x:Int) - 1) ((y:Int) + 1)).toNat = ((y+1) % 30) * 70 + (x+69) % 70 := by
  rw [cellindex_toNat _ _ (by omega) (by omega)]; omega

lemma idx7 (x y : Nat) (hx : x < 70) (hy : y < 30) :
    (cellindex (x:Int) ((y:Int) + 1)).toNat = ((y+1) % 30) * 70 + x % 70 := by
  rw [cellindex_toNat _ _ (by omega) (by omega)]; omega

lemma idx8 (x y : Nat) (hx : x < 70) (hy : y < 30) :
    (cellindex ((x:Int) + 1) ((y:Int) + 1)).toNat = ((y+1) % 30) * 70 + (x+1) % 70 := by
  rw [cellindex_toNat _ _ (by omega) (by omega)]; omega

lemma nbSum_mkGrid (f : Nat → Nat → Int) (x y : Nat) (hx : x < 70) (hy : y < 30) :
    nbSum (mkGrid f) ((x : Nat) : Int) ((y : Nat) : Int) = nbF f x y := by
  rw [nbSum, idx1 x y hx hy, idx2 x y hx hy, idx3 x y hx hy, idx4 x y hx hy,
    idx5 x y hx hy, idx6 x y hx hy, idx7 x y hx hy, idx8 x y hx hy,
    mkGrid_getD f ((x+69) % 70) ((y+29) % 30) (by omega) (by omega),
    mkGrid_getD f (x % 70) ((y+29) % 30) (by omega) (by omega),
    mkGrid_getD f ((x+1) % 70) ((y+29) % 30) (by omega) (by omega),
    mkGrid_getD f ((x+69) % 70) (y % 30) (by omega) (by omega),
    mkGrid_getD f ((x+1) % 70) (y % 30) (by omega) (by omega),
    mkGrid_getD f ((x+69) % 70) ((y+1) % 30) (by omega) (by omega),
    mkGrid_getD f (x % 70) ((y+1) % 30) (by omega) (by omega),
    mkGrid_getD f ((x+1) % 70) ((y+1) % 30) (by omega) (by omega), nbF]

lemma cellNext_mkGrid (f : Nat → Nat → Int) (x y : Nat) (hx : x < 70) (hy : y < 30) :
    cellNext (mkGrid f) ((x : Nat) : Int) ((y : Nat) : Int) = stepF f x y := by
  have ic : (cellindex (x:Int) (y:Int)).toNat = (y % 30) * 70 + x % 70 := by
    rw [cellindex_toNat _ _ (by omega) (by omega)]; omega
  rw [cellNext, stepF, nbSum_mkGrid f x y hx hy, ic,
    mkGrid_getD f _ _ (by omega) (by omega)]

lemma lifeStep_mkGrid (f : Nat → Nat → Int) :
    lifeStep (mkGrid f) = mkGrid (stepF f) := by
  apply list_eq_of_getD _ _ (lifeStep_length _) (mkGrid_length _)
  intro j hj
  rw [lifeStep_getD _ j hj, mkGrid_getD_lin _ j hj,
    cellNext_mkGrid f _ _ (by omega) (by omega)]

/-- update on a functional grid is total and acts as stepF pointwise. -/
lemma update_mkGrid (f : Nat → Nat → Int) :
    update (mkGrid f) = some (mkGrid (stepF f)) := by
  rw [update_eq_lifeStep _ (mkGrid_length f), lifeStep_mkGrid]

/-! ### Toroidal translation of functional grids -/

/-- The functional grid f translated by (a, b) on the torus. -/
def shiftF (f : Nat → Nat → Int) (a b : Nat) : Nat → Nat → Int :=
  fun x y => f ((x + a) % 70) ((y + b) % 30)

lemma nbF_shiftF (f : Nat → Nat → Int) (a b x y : Nat) :
    nbF (shiftF f a b) x y = nbF f ((x + a) % 70) ((y + b) % 30) := by
  have t1 : ((x+69) % 70 + a) % 70 = ((x + a) % 70 + 69) % 70 := by omega
  have t2 : (x % 70 + a) % 70 = ((x + a) % 70) % 70 := by omega
  have t3 : ((x+1) % 70 + a) % 70 = ((x + a) % 70 + 1) % 70 := by omega
  have t4 : ((y+29) % 30 + b) % 30 = ((y + b) % 30 + 29) % 30 := by omega
  have t5 : (y % 30 + b) % 30 = ((y + b) % 30) % 30 := by omega
  have t6 : ((y+1) % 30 + b) % 30 = ((y + b) % 30 + 1) % 30 := by omega
  simp only [nbF, shiftF]
  rw [t1, t2, t3, t4, t5, t6]

lemma stepF_shiftF (f : Nat → Nat → Int) (a b : Nat) :
    stepF (shiftF f a b) = shiftF (stepF f) a b := by
  funext x y
  have c1 : (x % 70 + a) % 70 = ((x + a) % 70) % 70 := by omega
  have c2 : (y % 30 + b) % 30 = ((y + b) % 30) % 30 := by omega
  show stepF (shiftF f a b) x y = stepF f ((x + a) % 70) ((y + b) % 30)
  simp only [stepF, shiftF, nbF_shiftF]
  rw [c1, c2]

lemma mkGrid_congr (f g : Nat → Nat → Int) (h : ∀ x < 70, ∀ y < 30, f x y = g x y) :
    mkGrid f = mkGrid g := by
  apply list_eq_of_getD _ _ (mkGrid_length f) (mkGrid_length g)
  intro j hj
  rw [mkGrid_getD_lin f j hj, mkGrid_getD_lin g j hj]
  exact h _ (by omega) _ (by omega)

lemma mkGrid_ne_of_ne_at (f g : Nat → Nat → Int) (x y : Nat) (hx : x < 70) (hy : y < 30)
    (h : f x y ≠ g x y) : mkGrid f ≠ mkGrid g := by
  intro he
  apply h
  have h2 : (mkGrid f).getD (y * 70 + x) 0 = (mkGrid g).getD (y * 70 + x) 0 :=
    congrArg (fun l => l.getD (y * 70 + x) 0) he
  rwa [mkGrid_getD f x y hx hy, mkGrid_getD g x y hx hy] at h2

/-! ### Concrete patterns: block and blinkers at the origin -/

/-- A 2x2 block of live cells with corner at the origin. -/
def block00 : Nat → Nat → Int := fun x y =>
  if (x = 0 ∨ x = 1) ∧ (y = 0 ∨ y = 1) then 1 else 0

/-- Three live cells in a horizontal row starting at the origin. -/
def blinkerH00 : Nat → Nat → Int := fun x y =>
  if y = 0 ∧ (x = 0 ∨ x = 1 ∨ x = 2) then 1 else 0

/-- The vertical phase of the horizontal blinker: column 1, rows 29, 0, 1. -/
def blinkerHmid : Nat → Nat → Int := fun x y =>
  if x = 1 ∧ (y = 0 ∨ y = 1 ∨ y = 29) then 1 else 0

/-- Three live cells in a vertical row starting at the origin. -/
def blinkerV00 : Nat → Nat → Int := fun x y =>
  if x = 0 ∧ (y = 0 ∨ y = 1 ∨ y = 2) then 1 else 0

/-- The horizontal phase of the vertical blinker: row 1, columns 69, 0, 1. -/
def blinkerVmid : Nat → Nat → Int := fun x y =>
  if y = 1 ∧ (x = 0 ∨ x = 1 ∨ x = 69) then 1 else 0

/-- The 2100-cell grid holding exactly a 2x2 block, translated by (a, b). -/
def blockGrid (a b : Nat) : List Int := mkGrid (shiftF block00 a b)

/-- The grid holding exactly a horizontal 3-in-a-row, translated by (a, b). -/
def blinkerHGrid (a b : Nat) : List Int := mkGrid (shiftF blinkerH00 a b)

/-- The grid holding exactly a vertical 3-in-a-row, translated by (a, b). -/
def blinkerVGrid (a b : Nat) : List Int := mkGrid (shiftF blinkerV00 a b)

lemma stepF_dead : ∀ x < 70, ∀ y < 30, stepF (fun _ _ => (0:Int)) x y = 0 := by decide

lemma stepF_block : ∀ x < 70, ∀ y < 30, stepF block00 x y = block00 x y := by decide

lemma stepF_blinkerH1 : ∀ x < 70, ∀ y < 30, stepF blinkerH00 x y = blinkerHmid x y := by decide

lemma stepF_blinkerH2 : ∀ x < 70, ∀ y < 30, stepF blinkerHmid x y = blinkerH00 x y := by decide

lemma stepF_blinkerV1 : ∀ x < 70, ∀ y < 30, stepF blinkerV00 x y = blinkerVmid x y := by decide

lemma stepF_blinkerV2 : ∀ x < 70, ∀ y < 30, stepF blinkerVmid x y = blinkerV00 x y := by decide

/-- update carries a translated pattern to its translated stepF image. -/
lemma update_shift (f g : Nat → Nat → Int) (a b : Nat)
    (h : ∀ x < 70, ∀ y < 30, stepF f x y = g x y) :
    update (mkGrid (shiftF f a b)) = some (mkGrid (shiftF g a b)) := by
  rw [update_mkGrid, stepF_shiftF]
  exact congrArg some (mkGrid_congr _ _ fun x hx y hy =>
    h ((x + a) % 70) (by omega) ((y + b) % 30) (by omega))

/-! ### All-dead grid facts -/

lemma replicate_getD (j : Nat) : (List.replicate 2100 (0:Int)).getD j 0 = 0 := by
  by_cases h : j < 2100
  · rw [getD_eq_getElem _ _ (by rw [List.length_replicate]; omega), List.getElem_replicate]
  · rw [List.getD_eq_getElem?_getD, List.getElem?_eq_none (by rw [List.length_replicate]; omega),
      Option.getD_none]

lemma nbSum_dead (x y : Int) : nbSum (List.replicate 2100 (0:Int)) x y = 0 := by
  rw [nbSum, replicate_getD, replicate_getD, replicate_getD, replicate_getD,
    replicate_getD, replicate_getD, replicate_getD, replicate_getD]
  norm_num

/-! ### Iterated advance -/

/-- n repeated applications of update, each reading only the previous
generation. -/
def advanceN : Nat → List Int → Option (List Int)
  | 0, g => some g
  | n+1, g => (update g).bind (advanceN n)

lemma advanceN_total : ∀ (n : Nat) (g : List Int), g.length = 2100 →
    ∃ gn, advanceN n g = some gn ∧ gn.length = 2100 := by
  intro n
  induction n with
  | zero => intro g hg; exact ⟨g, rfl, hg⟩
  | succ n ih =>
    intro g hg
    have he : advanceN (n + 1) g = (update g).bind (advanceN n) := rfl
    rw [he, update_eq_lifeStep g hg, Option.some_bind]
    exact ih (lifeStep g) (lifeStep_length g)

lemma advanceN_add : ∀ (m n : Nat) (g : List Int),
    advanceN (m + n) g = (advanceN m g).bind (advanceN n) := by
  intro m
  induction m with
  | zero =>
    intro n g
    rw [Nat.zero_add]
    show advanceN n g = (some g).bind (advanceN n)
    rw [Option.some_bind]
  | succ m ih =>
    intro n g
    rw [show m + 1 + n = (m + n) + 1 from by omega]
    show (update g).bind (advanceN (m + n)) = ((update g).bind (advanceN m)).bind (advanceN n)
    cases hu : update g with
    | none => rfl
    | some h => rw [Option.some_bind, Option.some_bind, ih n h]

/-! ### Remaining small helpers for the claim theorems -/

lemma getcell_in_bounds (g : List Int) (x y : Int) (hg : g.length = 2100)
    (h0 : 0 ≤ cellindex x y) (h1 : cellindex x y < 2100) :
    getcell g x y = some (g.getD (cellindex x y).toNat 0) := by
  rw [getcell, if_pos (by rw [hg]; omega)]

lemma getcell_neg (g : List Int) (x y : Int) (h : cellindex x y < 0) :
    getcell g x y = none := by
  rw [getcell, if_neg (by omega)]

lemma getD_01_bounds (g : List Int) (h01 : ∀ c ∈ g, c = 0 ∨ c = 1) (j : Nat) :
    0 ≤ g.getD j 0 ∧ g.getD j 0 ≤ 1 := by
  rcases getD_mem_01 g h01 j with h | h <;> rw [h] <;> omega

lemma replicate_01 : ∀ c ∈ List.replicate 2100 (0:Int), c = 0 ∨ c = 1 :=
  fun _ hc => Or.inl (List.eq_of_mem_replicate hc)

lemma lifeStep_01 (g : List Int) (h01 : ∀ c ∈ g, c = 0 ∨ c = 1) :
    ∀ c ∈ lifeStep g, c = 0 ∨ c = 1 := by
  intro c hc
  simp only [lifeStep] at hc
  obtain ⟨i, hi⟩ := (List.mem_ofFn _ _).mp hc
  rw [← hi]
  show cellNext g (((i : Nat) % 70 : Nat) : Int) (((i : Nat) / 70 : Nat) : Int) = 0 ∨
    cellNext g (((i : Nat) % 70 : Nat) : Int) (((i : Nat) / 70 : Nat) : Int) = 1
  rw [cellNext]
  split_ifs <;>
    first
      | exact Or.inl rfl
      | exact Or.inr rfl
      | exact getD_mem_01 g h01 _

lemma foldl_set_one_01 (l : List (Nat × Nat)) : ∀ g : List Int,
    (∀ c ∈ g, c = 0 ∨ c = 1) →
    ∀ c ∈ l.foldl (fun g p => g.set (cellindex p.1 p.2).toNat 1) g, c = 0 ∨ c = 1 := by
  induction l with
  | nil => intro g hg; exact hg
  | cons p rest ih =>
    intro g hg c hc
    rw [List.foldl_cons] at hc
    exact ih _ (fun d hd => (List.mem_or_eq_of_mem_set hd).elim (hg d) Or.inr) c hc

/-! ### The claims -/

/-- Claim C1: the spec states that index computes true mathematical modulo,
so that index(x + k*W, y) = index(x, y) for all integers and results wrap
into the positive range. The code's (x+COLS)%COLS with C's truncating
remainder breaks this one column beyond -W: cellindex(-1 + (-1)*70, 0)
evaluates to -1 (negative, not a wrapped index), while cellindex(-1, 0)
is 69, refuting wrap periodicity at x = -1, k = -1; this contradicts both
the spec and the source comment above cellindex, which promises that any
x or y is converted into grid coordinates by modular arithmetic. -/
theorem c1_index_wrap_fails :
    cellindex (-1 + (-1) * 70) 0 = -1 ∧ cellindex (-1) 0 = 69 ∧
    cellindex (-1 + (-1) * 70) 0 ≠ cellindex (-1) 0 := by
  refine ⟨by decide, by decide, by decide⟩

/-- Claim C2: on every 2100-cell grid whose cells are all 0 or 1, update
produces exactly the grid described by the spec: the standard Life rule
table mapped over every cell, with the cell's own state and all 8
toroidally-wrapped neighbor counts read from the unmodified pre-advance
grid (the snapshot discipline), independently of any other cell's new
value. -/
theorem c2_update_refines_spec_advance (g : List Int) (hg : g.length = 2100)
    (h01 : ∀ c ∈ g, c = 0 ∨ c = 1) :
    update g = some (specAdvance g) := by
  rw [update_eq_lifeStep g hg, lifeStep_eq_specAdvance g h01]

/-- Witness for C2 at the concrete all-dead 2100-cell grid. -/
theorem c2_witness :
    (List.replicate 2100 (0:Int)).length = 2100 ∧
    update (List.replicate 2100 (0:Int)) = some (specAdvance (List.replicate 2100 0)) :=
  ⟨by rw [List.length_replicate],
    c2_update_refines_spec_advance _ (by rw [List.length_replicate]) replicate_01⟩

/-- Claim C3: the spec states get and set never fail for any integer
coordinates. On the code, at (x, y) = (-71, 0) the computed index is -1,
so the C program reads or writes grid[-1], out of bounds, for every grid:
both accessors fail there, refuting the claim; the spec's wrap contract
and the source comment on cellindex are the intent, the truncating
remainder is the slip. -/
theorem c3_accessors_fail_out_of_bounds :
    ∀ g : List Int, getcell g (-71) 0 = none ∧ setcell g (-71) 0 1 = none := by
  intro g
  have hneg : cellindex (-71) 0 = -1 := by decide
  constructor
  · rw [getcell, hneg, if_neg (by omega)]
  · rw [setcell, hneg, if_neg (by omega)]

/-- Counterexample to C4 as stated: at coordinate (-70, 0) on the all-dead
0/1 grid, count_alive_neighbors does not return a value in [0, 8]: its
west lookup getcell(grid, -71, 0) indexes grid[-1], out of bounds, so the
count fails (none). -/
theorem c4_counterexample :
    count_alive_neighbors (List.replicate 2100 (0:Int)) (-70) 0 = none := by
  have hlen : (List.replicate 2100 (0:Int)).length = 2100 := by rw [List.length_replicate]
  rw [count_alive_neighbors,
    getcell_in_bounds (List.replicate 2100 (0:Int)) (-70 - 1) (0 - 1) hlen
      (by decide) (by decide), Option.some_bind,
    getcell_in_bounds (List.replicate 2100 (0:Int)) (-70) (0 - 1) hlen
      (by decide) (by decide), Option.some_bind,
    getcell_in_bounds (List.replicate 2100 (0:Int)) (-70 + 1) (0 - 1) hlen
      (by decide) (by decide), Option.some_bind,
    getcell_neg (List.replicate 2100 (0:Int)) (-70 - 1) 0 (by decide), Option.none_bind]

/-- Claim C4, amended: for every 2100-cell grid of 0/1 cells and every
coordinate (x, y) with x > -W and y > -H (in particular every in-bounds
coordinate), countAliveNeighbors returns a value in [0, 8] equal to the
sum of the 8 toroidally-wrapped neighbor states of (x, y), the cell
itself excluded. -/
theorem c4_count_bounded_amended (g : List Int) (hg : g.length = 2100)
    (h01 : ∀ c ∈ g, c = 0 ∨ c = 1) (x y : Int) (hx : -69 ≤ x) (hy : -29 ≤ y) :
    ∃ k, count_alive_neighbors g x y = some k ∧ 0 ≤ k ∧ k ≤ 8 ∧
      k = specNeighborCount g x y := by
  have b1 := getD_01_bounds g h01 (cellindex (x-1) (y-1)).toNat
  have b2 := getD_01_bounds g h01 (cellindex x (y-1)).toNat
  have b3 := getD_01_bounds g h01 (cellindex (x+1) (y-1)).toNat
  have b4 := getD_01_bounds g h01 (cellindex (x-1) y).toNat
  have b5 := getD_01_bounds g h01 (cellindex (x+1) y).toNat
  have b6 := getD_01_bounds g h01 (cellindex (x-1) (y+1)).toNat
  have b7 := getD_01_bounds g h01 (cellindex x (y+1)).toNat
  have b8 := getD_01_bounds g h01 (cellindex (x+1) (y+1)).toNat
  refine ⟨nbSum g x y, count_eq g x y hg hx hy, ?_, ?_,
    nbSum_eq_specNeighborCount g x y hx hy⟩
  · rw [nbSum]; omega
  · rw [nbSum]; omega

/-- Witness for the amended C4 at the all-dead grid and coordinate (0,0). -/
theorem c4_witness :
    ∃ k, count_alive_neighbors (List.replicate 2100 (0:Int)) 0 0 = some k ∧
      0 ≤ k ∧ k ≤ 8 ∧ k = specNeighborCount (List.replicate 2100 (0:Int)) 0 0 :=
  c4_count_bounded_amended _ (by rw [List.length_replicate]) replicate_01 0 0
    (by norm_num) (by norm_num)

/-- Claim C5: on every 2100-cell grid whose cell (W-1, 0) = (69, 0) is
alive, counting the neighbors of (0, 0) includes that opposite-edge cell
as the western neighbor: the returned sum is nw + n + ne + 1 + e + sw +
s + se, the west slot contributing exactly its state 1. -/
theorem c5_west_neighbor_wraps (g : List Int) (hg : g.length = 2100)
    (halive : getcell g 69 0 = some 1) :
    count_alive_neighbors g 0 0 =
      some (g.getD 2099 0 + g.getD 2030 0 + g.getD 2031 0 + 1 + g.getD 1 0 +
        g.getD 139 0 + g.getD 70 0 + g.getD 71 0) := by
  rw [getcell_eq g 69 0 hg (by norm_num) (by norm_num),
    show (cellindex 69 0).toNat = 69 from by decide] at halive
  have hw : g.getD 69 0 = 1 := Option.some.inj halive
  rw [count_eq g 0 0 hg (by norm_num) (by norm_num), nbSum,
    show (cellindex (0-1) (0-1)).toNat = 2099 from by decide,
    show (cellindex 0 (0-1)).toNat = 2030 from by decide,
    show (cellindex (0+1) (0-1)).toNat = 2031 from by decide,
    show (cellindex (0-1) 0).toNat = 69 from by decide,
    show (cellindex (0+1) 0).toNat = 1 from by decide,
    show (cellindex (0-1) (0+1)).toNat = 139 from by decide,
    show (cellindex 0 (0+1)).toNat = 70 from by decide,
    show (cellindex (0+1) (0+1)).toNat = 71 from by decide, hw]

/-- Witness for C5 on the grid with the single live cell (69, 0). -/
theorem c5_witness :
    count_alive_neighbors ((List.replicate 2100 (0:Int)).set 69 1) 0 0 =
      some (((List.replicate 2100 (0:Int)).set 69 1).getD 2099 0 +
        ((List.replicate 2100 (0:Int)).set 69 1).getD 2030 0 +
        ((List.replicate 2100 (0:Int)).set 69 1).getD 2031 0 + 1 +
        ((List.replicate 2100 (0:Int)).set 69 1).getD 1 0 +
        ((List.replicate 2100 (0:Int)).set 69 1).getD 139 0 +
        ((List.replicate 2100 (0:Int)).set 69 1).getD 70 0 +
        ((List.replicate 2100 (0:Int)).set 69 1).getD 71 0) := by
  have hlen : ((List.replicate 2100 (0:Int)).set 69 1).length = 2100 := by
    rw [List.length_set, List.length_replicate]
  apply c5_west_neighbor_wraps _ hlen
  rw [getcell_eq _ 69 0 hlen (by norm_num) (by norm_num),
    show (cellindex 69 0).toNat = 69 from by decide,
    getD_set_self _ 69 1 (by rw [List.length_replicate]; omega)]

/-- Claim C6: update maps the all-dead 2100-cell grid to the all-dead
grid: no spontaneous generation. -/
theorem c6_all_dead_stays_dead :
    update (List.replicate 2100 (0:Int)) = some (List.replicate 2100 (0:Int)) := by
  rw [update_eq_lifeStep _ (by rw [List.length_replicate])]
  refine congrArg some (list_eq_of_getD _ _ (lifeStep_length _)
    (by rw [List.length_replicate]) ?_)
  intro j hj
  rw [lifeStep_getD _ j hj, cellNext, nbSum_dead, replicate_getD, replicate_getD]
  norm_num

/-- Claim C7: every grid holding exactly one 2x2 block of live cells
(every toroidal translate (a, b) of the block at the origin, all other
cells dead) is a fixed point of update. -/
theorem c7_block_fixed_point :
    ∀ a b : Nat, update (blockGrid a b) = some (blockGrid a b) :=
  fun a b => update_shift block00 block00 a b stepF_block

/-- Claim C8: every grid holding exactly three live cells in a row (every
toroidal translate of the horizontal or of the vertical 3-cell row, all
other cells dead) oscillates with period 2 under update: two updates
return the grid and one update does not. -/
theorem c8_blinker_period_two : ∀ a b : Nat,
    ((update (blinkerHGrid a b)).bind update = some (blinkerHGrid a b) ∧
      update (blinkerHGrid a b) ≠ some (blinkerHGrid a b)) ∧
    ((update (blinkerVGrid a b)).bind update = some (blinkerVGrid a b) ∧
      update (blinkerVGrid a b) ≠ some (blinkerVGrid a b)) := by
  intro a b
  have h1 : update (blinkerHGrid a b) = some (mkGrid (shiftF blinkerHmid a b)) :=
    update_shift blinkerH00 blinkerHmid a b stepF_blinkerH1
  have h2 : update (mkGrid (shiftF blinkerHmid a b)) = some (mkGrid (shiftF blinkerH00 a b)) :=
    update_shift blinkerHmid blinkerH00 a b stepF_blinkerH2
  have h3 : update (blinkerVGrid a b) = some (mkGrid (shiftF blinkerVmid a b)) :=
    update_shift blinkerV00 blinkerVmid a b stepF_blinkerV1
  have h4 : update (mkGrid (shiftF blinkerVmid a b)) = some (mkGrid (shiftF blinkerV00 a b)) :=
    update_shift blinkerVmid blinkerV00 a b stepF_blinkerV2
  have ex : ((70 - a % 70) % 70 + a) % 70 = 0 := by omega
  have ey : ((30 - b % 30) % 30 + b) % 30 = 0 := by omega
  have hneH : mkGrid (shiftF blinkerHmid a b) ≠ mkGrid (shiftF blinkerH00 a b) := by
    apply mkGrid_ne_of_ne_at _ _ ((70 - a % 70) % 70) ((30 - b % 30) % 30)
      (by omega) (by omega)
    show blinkerHmid (((70 - a % 70) % 70 + a) % 70) (((30 - b % 30) % 30 + b) % 30) ≠
      blinkerH00 (((70 - a % 70) % 70 + a) % 70) (((30 - b % 30) % 30 + b) % 30)
    rw [ex, ey]
    decide
  have hneV : mkGrid (shiftF blinkerVmid a b) ≠ mkGrid (shiftF blinkerV00 a b) := by
    apply mkGrid_ne_of_ne_at _ _ ((70 - a % 70) % 70) ((30 - b % 30) % 30)
      (by omega) (by omega)
    show blinkerVmid (((70 - a % 70) % 70 + a) % 70) (((30 - b % 30) % 30 + b) % 30) ≠
      blinkerV00 (((70 - a % 70) % 70 + a) % 70) (((30 - b % 30) % 30 + b) % 30)
    rw [ex, ey]
    decide
  refine ⟨⟨?_, ?_⟩, ?_, ?_⟩
  · rw [h1, Option.some_bind]; exact h2
  · rw [h1]; intro hc; exact hneH (Option.some.inj hc)
  · rw [h3, Option.some_bind]; exact h4
  · rw [h3]; intro hc; exact hneV (Option.some.inj hc)

/-- Claim C9: on every 2100-cell grid, update is total and deterministic
(exactly one next grid), every n-step sequence of repeated applications
is defined and stays 2100 cells, and running m+n steps equals running m
steps and then n steps on the intermediate result: the step is a pure
function of the current generation with no hidden state. -/
theorem c9_advance_deterministic_total (g : List Int) (hg : g.length = 2100) :
    (∃! g2, update g = some g2) ∧
    (∀ n, ∃ gn, advanceN n g = some gn ∧ gn.length = 2100) ∧
    (∀ m n, advanceN (m + n) g = (advanceN m g).bind (advanceN n)) := by
  refine ⟨⟨lifeStep g, update_eq_lifeStep g hg, fun g2 h2 => ?_⟩,
    fun n => advanceN_total n g hg, fun m n => advanceN_add m n g⟩
  rw [update_eq_lifeStep g hg] at h2
  exact (Option.some.inj h2).symm

/-- Witness for C9 at the all-dead grid. -/
theorem c9_witness :
    (∃! g2, update (List.replicate 2100 (0:Int)) = some g2) ∧
    (∀ n, ∃ gn, advanceN n (List.replicate 2100 (0:Int)) = some gn ∧ gn.length = 2100) ∧
    (∀ m n, advanceN (m + n) (List.replicate 2100 (0:Int)) =
      (advanceN m (List.replicate 2100 (0:Int))).bind (advanceN n)) :=
  c9_advance_deterministic_total _ (by rw [List.length_replicate])

/-- Claim C10: holding only 0/1 cells is an invariant: init yields an
all-zero buffer, setup maps 0/1 grids to 0/1 grids (it writes only the
value 1), and update maps every 0/1 grid of 2100 cells to a 0/1 grid
(it writes only 0 or 1 and otherwise keeps the existing cell value). -/
theorem c10_zero_one_invariant :
    (∀ g : List Int, ∀ c ∈ init g, c = 0) ∧
    (∀ g : List Int, (∀ c ∈ g, c = 0 ∨ c = 1) → ∀ c ∈ setup g, c = 0 ∨ c = 1) ∧
    (∀ g : List Int, g.length = 2100 → (∀ c ∈ g, c = 0 ∨ c = 1) →
      ∃ g2, update g = some g2 ∧ ∀ c ∈ g2, c = 0 ∨ c = 1) :=
  ⟨fun _ _ hc => List.eq_of_mem_replicate hc,
    fun g hg => foldl_set_one_01 setupCoords g hg,
    fun g hgl h01 => ⟨lifeStep g, update_eq_lifeStep g hgl, lifeStep_01 g h01⟩⟩

/-- Witness for C10's update clause at the all-dead grid. -/
theorem c10_witness :
    ∃ g2, update (List.replicate 2100 (0:Int)) = some g2 ∧ ∀ c ∈ g2, c = 0 ∨ c = 1 :=
  c10_zero_one_invariant.2.2 _ (by rw [List.length_replicate]) replicate_01

end GoL
